import Mathlib

/-!
Verification of the legacy-data migration utilities (`migrate_data.py`).

The development shallowly embeds the parts of the program that the
specification's claims are about:

* a proleptic-Gregorian calendar model (`Date`, `rataDie`, `weekday`)
  mirroring the `datetime` arithmetic the program relies on;
* the header-cell parsers corresponding to the regular expressions and
  `strptime` calls of `get_legacy_opportunities`;
* the opportunity-date classifier `get_legacy_opportunities` itself;
* the merge step `generate_migrated_opportunities` (validation pass and
  append loop over `data/opportunities.csv` rows);
* the phone normalizer `_format_phone`.

`datetime.datetime.now()` is modelled as an explicit `now : Date`
parameter; `uuid.uuid4()` as an oracle `Nat → String` indexed by the
number of rows appended so far; `datetime.now().strftime(...)` used for
the `created_at` column as an opaque string parameter.
-/

namespace MigrateData

/-- A calendar date (proleptic Gregorian), as `datetime.date` at day
granularity.  All the program's datetime values that matter to the claims
are midnight-valued, so comparisons with `datetime.datetime` values reduce
to date comparisons. -/
structure Date where
  y : Nat
  m : Nat
  d : Nat
deriving DecidableEq, Repr

/-- Gregorian leap-year test, as implemented by `calendar`/`datetime`. -/
def isLeap (y : Nat) : Bool :=
  (y % 4 == 0 && y % 100 != 0) || (y % 400 == 0)

/-- Number of days of month `m` (1..12), 0 for out-of-range months. -/
def monthDays (leap : Bool) : Nat → Nat
  | 1 => 31
  | 2 => if leap then 29 else 28
  | 3 => 31
  | 4 => 30
  | 5 => 31
  | 6 => 30
  | 7 => 31
  | 8 => 31
  | 9 => 30
  | 10 => 31
  | 11 => 30
  | 12 => 31
  | _ => 0

/-- Days in the year strictly before month `m`. -/
def daysBefore (leap : Bool) : Nat → Nat
  | 0 => 0
  | m + 1 => daysBefore leap m + monthDays leap m

/-- Rata-die day number: `0001-01-01` is day 1 (a Monday, exactly as in
`datetime.date.toordinal`). -/
def rataDie (dt : Date) : Nat :=
  365 * (dt.y - 1) + (dt.y - 1) / 4 + (dt.y - 1) / 400 - (dt.y - 1) / 100
    + daysBefore (isLeap dt.y) dt.m + dt.d

/-- Weekday with Python's `datetime.weekday()` convention:
Monday = 0, ..., Saturday = 5, Sunday = 6. -/
def weekday (dt : Date) : Nat :=
  (rataDie dt + 6) % 7

/-- `a < b` on dates, i.e. comparison of the underlying time points. -/
def dateLt (a b : Date) : Bool :=
  decide (rataDie a < rataDie b)

/-- `a ≤ b` on dates. -/
def dateLe (a b : Date) : Bool :=
  decide (rataDie a ≤ rataDie b)

/-- The date is a real calendar date (what `datetime.date` would accept). -/
def validDate (dt : Date) : Bool :=
  decide (1 ≤ dt.y) && decide (1 ≤ dt.m) && decide (dt.m ≤ 12) &&
  decide (1 ≤ dt.d) && decide (dt.d ≤ monthDays (isLeap dt.y) dt.m)

/-- The following calendar day (`+ datetime.timedelta(days=1)`). -/
def nextDate (dt : Date) : Date :=
  if dt.d < monthDays (isLeap dt.y) dt.m then ⟨dt.y, dt.m, dt.d + 1⟩
  else if dt.m < 12 then ⟨dt.y, dt.m + 1, 1⟩
  else ⟨dt.y + 1, 1, 1⟩

theorem monthDays_pos (leap : Bool) (m : Nat) (h1 : 1 ≤ m) (h2 : m ≤ 12) :
    1 ≤ monthDays leap m := by
  interval_cases m <;> cases leap <;> simp [monthDays]

theorem validDate_iff (y m d : Nat) :
    validDate ⟨y, m, d⟩ = true
      ↔ (1 ≤ y ∧ 1 ≤ m ∧ m ≤ 12 ∧ 1 ≤ d ∧ d ≤ monthDays (isLeap y) m) := by
  simp only [validDate, Bool.and_eq_true, decide_eq_true_eq]
  tauto

theorem nextDate_eq (y m d : Nat) :
    nextDate ⟨y, m, d⟩
      = if d < monthDays (isLeap y) m then ⟨y, m, d + 1⟩
        else if m < 12 then ⟨y, m + 1, 1⟩ else ⟨y + 1, 1, 1⟩ := rfl

theorem rataDie_eq (y m d : Nat) :
    rataDie ⟨y, m, d⟩
      = 365 * (y - 1) + (y - 1) / 4 + (y - 1) / 400 - (y - 1) / 100
        + daysBefore (isLeap y) m + d := rfl

theorem nextDate_valid (dt : Date) (h : validDate dt = true) :
    validDate (nextDate dt) = true := by
  obtain ⟨y, m, d⟩ := dt
  obtain ⟨hy, hm1, hm2, hd1, hd2⟩ := (validDate_iff y m d).mp h
  rw [nextDate_eq]
  split
  · rename_i hlt
    exact (validDate_iff _ _ _).mpr ⟨hy, hm1, hm2, by omega, by omega⟩
  · split
    · rename_i hm12
      exact (validDate_iff _ _ _).mpr
        ⟨hy, by omega, by omega, by omega, monthDays_pos _ _ (by omega) (by omega)⟩
    · exact (validDate_iff _ _ _).mpr
        ⟨by omega, by omega, by omega, by omega, monthDays_pos _ _ (by omega) (by omega)⟩

set_option maxHeartbeats 1000000 in
theorem rataDie_nextDate (dt : Date) (h : validDate dt = true) :
    rataDie (nextDate dt) = rataDie dt + 1 := by
  obtain ⟨y, m, d⟩ := dt
  obtain ⟨hy, hm1, hm2, hd1, hd2⟩ := (validDate_iff y m d).mp h
  rw [nextDate_eq]
  split
  · rw [rataDie_eq, rataDie_eq]
    omega
  · split
    · rename_i hge hm12
      have hdb : daysBefore (isLeap y) (m + 1)
          = daysBefore (isLeap y) m + monthDays (isLeap y) m := rfl
      rw [rataDie_eq, rataDie_eq, hdb]
      omega
    · rename_i hge hm12
      have hm : m = 12 := by omega
      subst hm
      have hd : d = 31 := by
        have : monthDays (isLeap y) 12 = 31 := by cases hb : isLeap y <;> rfl
        omega
      subst hd
      have h1 : daysBefore (isLeap (y + 1)) 1 = 0 := by
        cases hb : isLeap (y + 1) <;> rfl
      have hle : isLeap y = true ↔ ((y % 4 = 0 ∧ ¬ y % 100 = 0) ∨ y % 400 = 0) := by
        simp [isLeap]
      by_cases hcond : (y % 4 = 0 ∧ ¬ y % 100 = 0) ∨ y % 400 = 0
      · have hbt : isLeap y = true := hle.mpr hcond
        have h12 : daysBefore (isLeap y) 12 = 335 := by rw [hbt]; rfl
        rw [rataDie_eq, rataDie_eq, h1, h12]
        clear hge hd2 hd1 hle hbt
        omega
      · have hbf : isLeap y = false := by
          cases hb : isLeap y
          · rfl
          · exact absurd (hle.mp hb) hcond
        have h12 : daysBefore (isLeap y) 12 = 334 := by rw [hbf]; rfl
        rw [rataDie_eq, rataDie_eq, h1, h12]
        clear hge hd2 hd1 hle hbf
        omega

/-! ### String rendering of dates

`renderMDY` is `strftime('%#m/%#d/%Y')` (month and day without zero
padding); `renderISODate` is `strftime('%Y-%m-%d')`.  All dates the
program renders have four-digit years. -/

/-- `strftime('%#m/%#d/%Y')`: unpadded month and day. -/
def renderMDY (dt : Date) : String :=
  toString dt.m ++ "/" ++ toString dt.d ++ "/" ++ toString dt.y

/-- Zero-pad a number to two digits, as `%m`/`%d` do. -/
def pad2 (n : Nat) : String :=
  if n < 10 then "0" ++ toString n else toString n

/-- `strftime('%Y-%m-%d')` for the four-digit years the data holds. -/
def renderISODate (dt : Date) : String :=
  toString dt.y ++ "-" ++ pad2 dt.m ++ "-" ++ pad2 dt.d

/-! ### Parsing of header cells

These functions are the shallow embedding of the regular expressions and
`strptime` calls in `get_legacy_opportunities`: a regex shape test,
followed by a parse that validates the calendar date exactly where
`strptime` would raise `ValueError`. -/

/-- Split a character list at every occurrence of `sep`, as Python's
`str.split(sep)` does for a one-character separator (`''.split(sep)`
aside, which the shapes below rule out anyway). -/
def splitCharAux (sep : Char) : List Char → List (List Char)
  | [] => [[]]
  | c :: rest =>
    match splitCharAux sep rest with
    | [] => [[]]
    | h :: t => if c = sep then [] :: h :: t else (c :: h) :: t

/-- `s.split(sep)` for a one-character separator. -/
def splitChar (sep : Char) (s : String) : List String :=
  (splitCharAux sep s.data).map String.mk

/-- Every character is an ASCII digit and the string is nonempty. -/
def isDigits (s : String) : Bool :=
  s.data.all Char.isDigit && decide (s.data ≠ [])

/-- Numeric value of a digit string. -/
def natOfDigits (s : String) : Nat :=
  s.data.foldl (fun acc c => 10 * acc + (c.toNat - 48)) 0

/-- Shape test for `^\d{1,2}/\d{1,2}/\d{4}$`. -/
def mdyShape (s : String) : Bool :=
  match splitChar '/' s with
  | [ms, ds, ys] =>
    isDigits ms && isDigits ds && isDigits ys &&
    decide (ms.length ≤ 2) && decide (ds.length ≤ 2) && decide (ys.length = 4)
  | _ => false

/-- `strptime`'s final validation step: a parsed year/month/day triple is
accepted only when it is a real calendar date, else `ValueError`. -/
def checkValid (dt : Date) : Option Date :=
  if validDate dt then some dt else none

/-- `strptime(col, '%m/%d/%Y')` on a string of shape `M/D/YYYY`:
returns the date when it is a real calendar date, `none` where `strptime`
raises `ValueError`. -/
def parseMDY (s : String) : Option Date :=
  match splitChar '/' s with
  | [ms, ds, ys] =>
    if isDigits ms && isDigits ds && isDigits ys &&
        decide (ms.length ≤ 2) && decide (ds.length ≤ 2) && decide (ys.length = 4) then
      checkValid ⟨natOfDigits ys, natOfDigits ms, natOfDigits ds⟩
    else none
  | _ => none

/-- Shape test for `^\d{4}-\d{2}-\d{2} 00:00:00$`. -/
def isoShape (s : String) : Bool :=
  match splitChar ' ' s with
  | [dpart, tpart] =>
    (tpart == "00:00:00") &&
    (match splitChar '-' dpart with
     | [ys, ms, ds] =>
       isDigits ys && isDigits ms && isDigits ds &&
       decide (ys.length = 4) && decide (ms.length = 2) && decide (ds.length = 2)
     | _ => false)
  | _ => false

/-- `strptime(col, '%Y-%m-%d %H:%M:%S')` applied to a cell of ISO
timestamp shape: the calendar date, `none` where `strptime` raises. -/
def parseISO (s : String) : Option Date :=
  match splitChar ' ' s with
  | [dpart, _] =>
    (match splitChar '-' dpart with
     | [ys, ms, ds] => checkValid ⟨natOfDigits ys, natOfDigits ms, natOfDigits ds⟩
     | _ => none)
  | _ => none

/-- One side of a date-range header: `\d{1,2}/\d{1,2}/\d{2,4}`. -/
def rangeSideShape (s : String) : Bool :=
  match splitChar '/' s with
  | [ms, ds, ys] =>
    isDigits ms && isDigits ds && isDigits ys &&
    decide (ms.length ≤ 2) && decide (ds.length ≤ 2) &&
    decide (2 ≤ ys.length) && decide (ys.length ≤ 4)
  | _ => false

/-- Shape test for `^\d{1,2}/\d{1,2}/\d{2,4}\-\d{1,2}\/\d{1,2}\/\d{2,4}$`. -/
def rangeShape (s : String) : Bool :=
  match splitChar '-' s with
  | [a, b] => rangeSideShape a && rangeSideShape b
  | _ => false

/-- The year a range endpoint's year digits denote, with the format the
source chooses by digit count: two digits go through `%y` (Python maps
00–68 to 2000–2068 and 69–99 to 1969–1999), otherwise `%Y`. -/
def rangeYear (ys : String) : Nat :=
  if ys.length = 2 then
    (if natOfDigits ys < 69 then 2000 + natOfDigits ys else 1900 + natOfDigits ys)
  else natOfDigits ys

/-- `strptime` of one range endpoint under the chosen format. -/
def parseRangeSide (s : String) : Option Date :=
  match splitChar '/' s with
  | [ms, ds, ys] => checkValid ⟨rangeYear ys, natOfDigits ms, natOfDigits ds⟩
  | _ => none

/-- Both endpoints of a date-range header (`col.split('-')` then
per-side `strptime`). -/
def parseRange (s : String) : Option (Date × Date) :=
  match splitChar '-' s with
  | [a, b] =>
    match parseRangeSide a, parseRangeSide b with
    | some x, some z => some (x, z)
    | _, _ => none
  | _ => none

theorem checkValid_some (dt d : Date) (h : checkValid dt = some d) :
    validDate d = true ∧ dt = d := by
  unfold checkValid at h
  split at h
  · cases h
    exact ⟨by assumption, rfl⟩
  · exact absurd h (by simp)

theorem parseRangeSide_valid (s : String) (d : Date)
    (h : parseRangeSide s = some d) : validDate d = true := by
  unfold parseRangeSide at h
  split at h
  · exact (checkValid_some _ _ h).1
  · exact absurd h (by simp)

theorem parseRange_valid (s : String) (a b : Date)
    (h : parseRange s = some (a, b)) :
    validDate a = true ∧ validDate b = true := by
  unfold parseRange at h
  split at h
  · split at h
    · rename_i h1 h2
      cases h
      exact ⟨parseRangeSide_valid _ _ h1, parseRangeSide_valid _ _ h2⟩
    · exact absurd h (by simp)
  · exact absurd h (by simp)

theorem parseMDY_valid (s : String) (d : Date)
    (h : parseMDY s = some d) : validDate d = true := by
  unfold parseMDY at h
  split at h
  · split at h
    · exact (checkValid_some _ _ h).1
    · exact absurd h (by simp)
  · exact absurd h (by simp)

end MigrateData

namespace MigrateData

/-! ### The opportunity-date classifier (`get_legacy_opportunities`)

The Python dict `opportunities` is modelled as an insertion-ordered
association list with distinct keys: assignment replaces the value in
place when the key is present and appends otherwise, exactly as a dict
does.  `sys.exit` and uncaught exceptions (`KeyError` on a missing sheet,
`IndexError` on an empty sheet, `ValueError` from `strptime`) are
modelled as the error branch of `Except`. -/

/-- An aborted run: the Python exception/`sys.exit` that ended it. -/
inductive RunError where
  | keyError (sheet : String)
  | indexError (sheet : String)
  | valueError
  | exitMsg (msg : String)
deriving DecidableEq, Repr

/-- The `opportunities` dict: date string `M/D/YYYY` ↦ labels. -/
abbrev OppMap : Type := List (String × List String)

/-- Dict lookup. -/
def mapLookup (m : OppMap) (k : String) : Option (List String) :=
  match m with
  | [] => none
  | (k', v) :: rest => if k' = k then some v else mapLookup rest k

/-- Dict assignment `m[k] = v`: replace in place, else append. -/
def mapSet (m : OppMap) (k : String) (v : List String) : OppMap :=
  match m with
  | [] => [(k, v)]
  | (k', v') :: rest => if k' = k then (k, v) :: rest else (k', v') :: mapSet rest k v

/-- The opportunity-label vocabulary (`seventh`). -/
def seventh : String := "seventh"

/-- `riverside`. -/
def riverside : String := "riverside"

/-- `menchaca`. -/
def menchaca : String := "menchaca"

/-- `Meal Prep`. -/
def meal_prep : String := "Meal Prep"

/-- `strptime("4/5/2025", "%m/%d/%Y")`. -/
def first_day_of_saturday : Date := ⟨2025, 4, 5⟩

/-- `strptime("10/18/2025", "%m/%d/%Y")`. -/
def first_day_of_riverside : Date := ⟨2025, 10, 18⟩

/-- `strptime("3/3/2024", "%m/%d/%Y")`. -/
def missed_day : Date := ⟨2024, 3, 3⟩

/-- The administrative header labels the classifier ignores. -/
def ignored_columns : List String := ["Volunteers:", "Total Hours:"]

/-- The fixed sheet list the classifier consults, in order. -/
def sheets_of_interest : List String :=
  ["2024 Handouts", "2024 Meal Prep", "2025 Saturday Handout", "2025 Sunday Handouts",
   "2025 Meal Prep", "2026 Saturday Handout", "2026 Sunday Handouts", "2026 Meal Prep"]

/-- Label list assigned to a Saturday, by policy era. -/
def saturdayLabels (d : Date) : List String :=
  if dateLt d first_day_of_saturday then [meal_prep]
  else if dateLt d first_day_of_riverside then [seventh, meal_prep]
  else [riverside, seventh, meal_prep]

/-- Label list assigned to a Sunday, by policy era. -/
def sundayLabels (d : Date) : List String :=
  if dateLt d first_day_of_saturday then [seventh]
  else [menchaca]

/-- The `while current_date <= end_date` loop of the date-range branch,
with explicit fuel (one unit per calendar day, which the caller supplies
exactly). -/
def rangeLoop (endD : Date) : Nat → Date → OppMap → OppMap
  | 0, _, m => m
  | fuel + 1, cur, m =>
    if dateLe cur endD then
      if cur = missed_day then rangeLoop endD fuel (nextDate cur) m
      else if weekday cur = 6 then
        if (mapLookup m (renderMDY cur)).isNone then
          rangeLoop endD fuel (nextDate cur) (mapSet m (renderMDY cur) [seventh])
        else rangeLoop endD fuel (nextDate cur) m
      else rangeLoop endD fuel (nextDate cur) m
    else m

/-- Days the range loop will visit: `end - start + 1` when the range is
nonempty. -/
def rangeFuel (startD endD : Date) : Nat :=
  rataDie endD + 1 - rataDie startD

/-- Step 1 of header processing: a cell of ISO shape
`YYYY-MM-DD 00:00:00` is reformatted to `M/D/YYYY`; other cells pass
through; an ISO-shaped cell with an impossible date is a `ValueError`. -/
def reinterp (cell : String) : Except RunError String :=
  if isoShape cell then
    match parseISO cell with
    | some d => Except.ok (renderMDY d)
    | none => Except.error RunError.valueError
  else Except.ok cell

/-- Processing of one header cell of `sheet`, threading the
`opportunities` map: the literal-date branch, the ignored labels, the
date-range branch, and the fatal default, in the source's order. -/
def processCell (now : Date) (sheet : String) (m : OppMap) (cell : String) :
    Except RunError OppMap :=
  match reinterp cell with
  | Except.error e => Except.error e
  | Except.ok col =>
    if mdyShape col then
      match parseMDY col with
      | none => Except.error RunError.valueError
      | some d =>
        if dateLt now d then Except.ok m
        else if d = missed_day then Except.ok m
        else if weekday d = 5 then
          Except.ok (mapSet m (renderMDY d) (saturdayLabels d))
        else if weekday d = 6 then
          Except.ok (mapSet m (renderMDY d) (sundayLabels d))
        else
          Except.error (RunError.exitMsg
            ("Unexpected weekday for date column " ++ col ++ " in sheet " ++ sheet))
    else if ignored_columns.contains col then Except.ok m
    else if rangeShape col then
      match parseRange col with
      | none => Except.error RunError.valueError
      | some (startD, endD) =>
        Except.ok (rangeLoop endD (rangeFuel startD endD) startD m)
    else
      Except.error (RunError.exitMsg
        ("Not a date string: \"" ++ col ++ "\" in sheet " ++ sheet))

/-- Left-to-right processing of a sheet's header cells, stopping at the
first fatal cell. -/
def processCells (now : Date) (sheet : String) : OppMap → List String →
    Except RunError OppMap
  | m, [] => Except.ok m
  | m, c :: rest =>
    match processCell now sheet m c with
    | Except.ok m' => processCells now sheet m' rest
    | Except.error e => Except.error e

/-- The combined dataset: sheet name ↦ rows (row 0 is the header). -/
abbrev Combined : Type := List (String × List (List String))

/-- Python dict lookup on the combined dataset. -/
def lookupSheet (combined : Combined) (sheet : String) : Option (List (List String)) :=
  match combined with
  | [] => none
  | (k, v) :: rest => if k = sheet then some v else lookupSheet rest sheet

/-- One sheet of the classifier's loop: `combined[sheet][0]` (a missing
sheet is a `KeyError`, an empty sheet an `IndexError`) and then its
header cells. -/
def processSheet (now : Date) (combined : Combined) (m : OppMap) (sheet : String) :
    Except RunError OppMap :=
  match lookupSheet combined sheet with
  | none => Except.error (RunError.keyError sheet)
  | some rows =>
    match rows.head? with
    | none => Except.error (RunError.indexError sheet)
    | some header => processCells now sheet m header

/-- The classifier's loop over `sheets_of_interest`. -/
def processSheets (now : Date) (combined : Combined) : OppMap → List String →
    Except RunError OppMap
  | m, [] => Except.ok m
  | m, s :: rest =>
    match processSheet now combined m s with
    | Except.ok m' => processSheets now combined m' rest
    | Except.error e => Except.error e

/-- `get_legacy_opportunities(combined)`: the date ↦ labels map built
from the header rows of the configured sheets. -/
def get_legacy_opportunities (now : Date) (combined : Combined) :
    Except RunError OppMap :=
  processSheets now combined [] sheets_of_interest

end MigrateData

namespace MigrateData

/-! ### The merge step (`generate_migrated_opportunities`)

Rows of `data/opportunities.csv` carry the columns the function touches;
absent values (pandas `NaN`) are `none`.  The synthesized row dict in the
source has no `name` key, so appended rows have `name = none`. -/

/-- One row of the opportunities table. -/
structure Row where
  id : Option String
  image_url : Option String
  title : Option String
  datetime : String
  location : Option String
  description : Option String
  spot_left : Option Nat
  created_at : Option String
  ended : Option String
  start_time : Option String
  end_time : Option String
  redemption_code : Option String
  hours_approved : Option String
  location_link : Option String
  name : Option String
deriving DecidableEq, Repr

/-- `if date.endswith('+00'): date = date + '00'`. -/
def fixTZ (s : String) : String :=
  if s.data.reverse.take 3 = ['0', '0', '+'] then s ++ "00" else s

/-- Numeric value of two digit characters. -/
def twoDigits (a b : Char) : Nat :=
  10 * (a.toNat - 48) + (b.toNat - 48)

/-- The `HH:MM:SS` part accepted by `%H:%M:%S`. -/
def validTimeChars : List Char → Bool
  | [h1, h2, c1, m1, m2, c2, s1, s2] =>
    (c1 == ':') && (c2 == ':') &&
    h1.isDigit && h2.isDigit && m1.isDigit && m2.isDigit && s1.isDigit && s2.isDigit &&
    decide (twoDigits h1 h2 ≤ 23) && decide (twoDigits m1 m2 ≤ 59) &&
    decide (twoDigits s1 s2 ≤ 61)
  | _ => false

/-- UTC-offset suffixes accepted by `%z`: `±HHMM`, `±HH:MM` or `Z`. -/
def validTZChars : List Char → Bool
  | ['Z'] => true
  | [sgn, a, b, c, d] =>
    (sgn == '+' || sgn == '-') && a.isDigit && b.isDigit && c.isDigit && d.isDigit &&
    decide (twoDigits a b ≤ 23) && decide (twoDigits c d ≤ 59)
  | [sgn, a, b, colon, c, d] =>
    (sgn == '+' || sgn == '-') && (colon == ':') &&
    a.isDigit && b.isDigit && c.isDigit && d.isDigit &&
    decide (twoDigits a b ≤ 23) && decide (twoDigits c d ≤ 59)
  | _ => false

/-- `strptime(date, '%Y-%m-%d %H:%M:%S%z').date()`: the calendar date of
an existing row's `datetime` field, `none` where `strptime` raises. -/
def parseDatetimeTZ (s : String) : Option Date :=
  match splitChar ' ' s with
  | [dpart, tpart] =>
    (match splitChar '-' dpart with
     | [ys, ms, ds] =>
       if isDigits ys && isDigits ms && isDigits ds && decide (ys.length = 4) &&
           decide (ms.length ≤ 2) && decide (ds.length ≤ 2) &&
           validTimeChars (tpart.data.take 8) && validTZChars (tpart.data.drop 8) then
         checkValid ⟨natOfDigits ys, natOfDigits ms, natOfDigits ds⟩
       else none
     | _ => none)
  | _ => none

/-- The calendar date a row's `datetime` denotes (after the `+00` fix). -/
def rowDate (r : Row) : Option Date :=
  parseDatetimeTZ (fixTZ r.datetime)

/-- The validation pass over the existing rows: an already-occurred row
whose date the classifier's map does not explain is fatal. -/
def validateRows (now : Date) (legacy : OppMap) : List Row → Except RunError Unit
  | [] => Except.ok ()
  | r :: rest =>
    match rowDate r with
    | none => Except.error RunError.valueError
    | some d =>
      if (mapLookup legacy (renderMDY d)).isSome then validateRows now legacy rest
      else if dateLt now d then validateRows now legacy rest
      else Except.error (RunError.exitMsg ("Not in opportunities " ++ renderMDY d))

/-- `l` starts with `p`. -/
def prefixOfList (p l : List Char) : Bool :=
  match p, l with
  | [], _ => true
  | _ :: _, [] => false
  | a :: p', b :: l' => a == b && prefixOfList p' l'

/-- `needle` occurs contiguously inside `hay`. -/
def infixOfList (needle hay : List Char) : Bool :=
  match hay with
  | [] => needle.isEmpty
  | _ :: t => prefixOfList needle hay || infixOfList needle t

/-- The dedup filter of the append loop:
`df[(df['datetime'].str.contains(date)) & (df['name'] == opportunity_name)]`.
The date pattern contains no regex metacharacters, so `str.contains` is
substring search; `NaN == label` is false. -/
def matchesRow (dateStr label : String) (r : Row) : Bool :=
  infixOfList dateStr.data r.datetime.data && r.name == some label

/-- The synthesized `new_row` dict (its dict literal has no `name` key,
hence `name = none` after `pd.concat`). -/
def newRow (uid createdAt : String) (d : Date) (label : String) : Row :=
  { id := some uid
    image_url := none
    title := some label
    datetime := renderISODate d ++ " 09:00:00-0500"
    location := some "location coming soon"
    description := some "description coming soon"
    spot_left := some 0
    created_at := some createdAt
    ended := some "t"
    start_time := some "start time coming soon"
    end_time := some "end time coming soon"
    redemption_code := none
    hours_approved := some "f"
    location_link := none
    name := none }

/-- The inner `for opportunity_name in opportunity_names` loop, matching
against the dataframe grown so far and appending to it. -/
def appendLabels (uuid : Nat → String) (createdAt : String) (date : String) :
    List Row → Nat → List String → Except RunError (List Row × Nat)
  | df, ctr, [] => Except.ok (df, ctr)
  | df, ctr, label :: rest =>
    if (df.filter (matchesRow date label)).length = 0 then
      match parseMDY date with
      | none => Except.error RunError.valueError
      | some d =>
        appendLabels uuid createdAt date
          (df ++ [newRow (uuid ctr) createdAt d label]) (ctr + 1) rest
    else appendLabels uuid createdAt date df ctr rest

/-- The outer `for legacy_opportunity in legacy_opportunities.items()`
loop. -/
def appendRows (uuid : Nat → String) (createdAt : String) :
    List Row → Nat → List (String × List String) → Except RunError (List Row × Nat)
  | df, ctr, [] => Except.ok (df, ctr)
  | df, ctr, (date, labels) :: rest =>
    match appendLabels uuid createdAt date df ctr labels with
    | Except.error e => Except.error e
    | Except.ok (df2, c2) => appendRows uuid createdAt df2 c2 rest

/-- Validation pass followed by the append loop: the body of
`generate_migrated_opportunities` once the classifier's map is in hand. -/
def mergeOpps (now : Date) (uuid : Nat → String) (createdAt : String)
    (df : List Row) (legacy : OppMap) : Except RunError (List Row) :=
  match validateRows now legacy df with
  | Except.error e => Except.error e
  | Except.ok _ =>
    match appendRows uuid createdAt df 0 legacy with
    | Except.error e => Except.error e
    | Except.ok (df2, _) => Except.ok df2

/-- `generate_migrated_opportunities(combined)` over an existing table
`df`: classifier, validation pass, append loop. -/
def generate_migrated_opportunities (now : Date) (uuid : Nat → String)
    (createdAt : String) (df : List Row) (combined : Combined) :
    Except RunError (List Row) :=
  match get_legacy_opportunities now combined with
  | Except.error e => Except.error e
  | Except.ok legacy => mergeOpps now uuid createdAt df legacy

/-! ### Phone normalization (`_format_phone`), string branch -/

/-- Python `str.strip()`. -/
def stripStr (s : String) : String :=
  String.mk (((s.data.dropWhile Char.isWhitespace).reverse.dropWhile Char.isWhitespace).reverse)

/-- `s = str(phone).strip()` followed by
`if '.' in s: s = s.split('.')[0]`. -/
def phoneClean (s : String) : String :=
  if (stripStr s).data.contains '.' then ((splitChar '.' (stripStr s)).headD "")
  else stripStr s

/-- `digits = ''.join(c for c in s if c.isdigit())`. -/
def phoneDigits (s : String) : List Char :=
  (phoneClean s).data.filter Char.isDigit

/-- Drop a leading country-code `1` from an 11-digit number. -/
def ccDrop (ds : List Char) : List Char :=
  if ds.length = 11 && ds.head? == some '1' then ds.tail else ds

/-- `_format_phone` on a string argument: `(XXX) XXX-XXXX` when ten US
digits can be extracted, otherwise the cleaned string. -/
def format_phone (s : String) : String :=
  if (ccDrop (phoneDigits s)).length = 10 then
    "(" ++ String.mk ((ccDrop (phoneDigits s)).take 3) ++ ") "
      ++ String.mk (((ccDrop (phoneDigits s)).drop 3).take 3) ++ "-"
      ++ String.mk ((ccDrop (phoneDigits s)).drop 6)
  else phoneClean s

end MigrateData

namespace MigrateData

/-! ### Dict lemmas -/

theorem mapLookup_mapSet_self (m : OppMap) (k : String) (v : List String) :
    mapLookup (mapSet m k v) k = some v := by
  induction m with
  | nil => simp [mapSet, mapLookup]
  | cons p rest ih =>
    obtain ⟨k', v'⟩ := p
    by_cases hk : k' = k
    · simp [mapSet, hk, mapLookup]
    · simp [mapSet, hk, mapLookup, ih]

theorem mapLookup_mapSet_ne (m : OppMap) (k k' : String) (v : List String)
    (h : k' ≠ k) : mapLookup (mapSet m k v) k' = mapLookup m k' := by
  induction m with
  | nil =>
    simp only [mapSet, mapLookup, if_neg (fun hkk : k = k' => h hkk.symm)]
  | cons p rest ih =>
    obtain ⟨k0, v0⟩ := p
    by_cases hk : k0 = k
    · subst hk
      simp only [mapSet, if_pos rfl, mapLookup,
        if_neg (fun hkk : k0 = k' => h hkk.symm)]
    · simp only [mapSet, if_neg hk]
      by_cases hk' : k0 = k'
      · simp [mapLookup, hk']
      · simp [mapLookup, hk', ih]

theorem mem_mapSet (m : OppMap) (k : String) (v : List String) :
    ∀ p : String × List String, p ∈ mapSet m k v → p ∈ m ∨ p = (k, v) := by
  induction m with
  | nil => intro p h; simpa [mapSet] using h
  | cons q rest ih =>
    intro p h
    obtain ⟨k0, v0⟩ := q
    by_cases hk : k0 = k
    · simp only [mapSet, if_pos hk] at h
      rw [List.mem_cons] at h
      rcases h with h | h
      · exact Or.inr h
      · exact Or.inl (List.mem_cons_of_mem _ h)
    · simp only [mapSet, if_neg hk] at h
      rw [List.mem_cons] at h
      rcases h with h | h
      · exact Or.inl (h ▸ List.mem_cons_self _ _)
      · rcases ih p h with h' | h'
        · exact Or.inl (List.mem_cons_of_mem _ h')
        · exact Or.inr h'

/-! ### Range-loop lemmas -/

theorem rangeLoop_preserves (endD : Date) (fuel : Nat) :
    ∀ (cur : Date) (m : OppMap) (k : String) (v : List String),
      mapLookup m k = some v →
      mapLookup (rangeLoop endD fuel cur m) k = some v := by
  induction fuel with
  | zero => intro cur m k v h; simpa [rangeLoop] using h
  | succ fuel ih =>
    intro cur m k v h
    unfold rangeLoop
    split
    · split
      · exact ih _ _ _ _ h
      · split
        · split
          · rename_i hnone
            apply ih
            by_cases hk : renderMDY cur = k
            · subst hk
              simp [Option.isNone_iff_eq_none.mp hnone] at h
            · rw [mapLookup_mapSet_ne _ _ _ _ (fun hkk => hk hkk.symm)]
              exact h
          · exact ih _ _ _ _ h
        · exact ih _ _ _ _ h
    · exact h

theorem rangeLoop_adds (endD : Date) (fuel : Nat) :
    ∀ (cur : Date) (m : OppMap) (k : String) (v : List String),
      validDate cur = true →
      mapLookup m k = none →
      mapLookup (rangeLoop endD fuel cur m) k = some v →
      v = [seventh] ∧ ∃ d : Date, validDate d = true ∧ weekday d = 6 ∧
        d ≠ missed_day ∧ dateLe cur d = true ∧ dateLe d endD = true ∧
        k = renderMDY d := by
  induction fuel with
  | zero =>
    intro cur m k v _ hnone hsome
    rw [rangeLoop, hnone] at hsome
    cases hsome
  | succ fuel ih =>
    intro cur m k v hvalid hnone hsome
    have hcurle : dateLe cur (nextDate cur) = true := by
      simp only [dateLe, decide_eq_true_eq]
      rw [rataDie_nextDate cur hvalid]
      omega
    have hstep : ∀ d : Date, dateLe (nextDate cur) d = true → dateLe cur d = true := by
      intro d hd
      simp only [dateLe, decide_eq_true_eq] at hd ⊢
      rw [rataDie_nextDate cur hvalid] at hd
      omega
    unfold rangeLoop at hsome
    split at hsome
    · rename_i hle
      split at hsome
      · obtain ⟨hv, d, hd⟩ := ih (nextDate cur) m k v (nextDate_valid cur hvalid) hnone hsome
        exact ⟨hv, d, hd.1, hd.2.1, hd.2.2.1, hstep d hd.2.2.2.1, hd.2.2.2.2⟩
      · split at hsome
        · rename_i hmiss hsun
          split at hsome
          · rename_i hfree
            by_cases hk : renderMDY cur = k
            · subst hk
              have hv : v = [seventh] := by
                have := rangeLoop_preserves endD fuel (nextDate cur)
                  (mapSet m (renderMDY cur) [seventh]) (renderMDY cur) [seventh]
                  (mapLookup_mapSet_self _ _ _)
                rw [this] at hsome
                exact (Option.some.inj hsome).symm
              refine ⟨hv, cur, hvalid, hsun, hmiss, ?_, hle, rfl⟩
              simp [dateLe]
            · have hnone' : mapLookup (mapSet m (renderMDY cur) [seventh]) k = none := by
                rw [mapLookup_mapSet_ne _ _ _ _ (fun hkk => hk hkk.symm)]
                exact hnone
              obtain ⟨hv, d, hd⟩ := ih (nextDate cur) _ k v (nextDate_valid cur hvalid)
                hnone' hsome
              exact ⟨hv, d, hd.1, hd.2.1, hd.2.2.1, hstep d hd.2.2.2.1, hd.2.2.2.2⟩
          · obtain ⟨hv, d, hd⟩ := ih (nextDate cur) m k v (nextDate_valid cur hvalid)
              hnone hsome
            exact ⟨hv, d, hd.1, hd.2.1, hd.2.2.1, hstep d hd.2.2.2.1, hd.2.2.2.2⟩
        · obtain ⟨hv, d, hd⟩ := ih (nextDate cur) m k v (nextDate_valid cur hvalid)
            hnone hsome
          exact ⟨hv, d, hd.1, hd.2.1, hd.2.2.1, hstep d hd.2.2.2.1, hd.2.2.2.2⟩
    · rw [hnone] at hsome
      cases hsome

theorem mem_rangeLoop (endD : Date) (fuel : Nat) :
    ∀ (cur : Date) (m : OppMap) (p : String × List String),
      p ∈ rangeLoop endD fuel cur m → p ∈ m ∨ p.2 = [seventh] := by
  induction fuel with
  | zero => intro cur m p h; exact Or.inl (by simpa [rangeLoop] using h)
  | succ fuel ih =>
    intro cur m p h
    unfold rangeLoop at h
    split at h
    · split at h
      · exact ih _ _ _ h
      · split at h
        · split at h
          · rcases ih _ _ _ h with h' | h'
            · rcases mem_mapSet _ _ _ _ h' with h'' | h''
              · exact Or.inl h''
              · exact Or.inr (by rw [h''])
            · exact Or.inr h'
          · exact ih _ _ _ h
        · exact ih _ _ _ h
    · exact Or.inl h

end MigrateData

namespace MigrateData

/-! ### Classifier invariants -/

/-- The five label lists the classifier can ever assign. -/
def fiveLabelLists : List (List String) :=
  [[meal_prep], [seventh, meal_prep], [riverside, seventh, meal_prep],
   [seventh], [menchaca]]

theorem saturdayLabels_mem (d : Date) : saturdayLabels d ∈ fiveLabelLists := by
  unfold saturdayLabels
  split
  · simp [fiveLabelLists]
  · split
    · simp [fiveLabelLists]
    · simp [fiveLabelLists]

theorem sundayLabels_mem (d : Date) : sundayLabels d ∈ fiveLabelLists := by
  unfold sundayLabels
  split
  · simp [fiveLabelLists]
  · simp [fiveLabelLists]

theorem mem_processCell (now : Date) (sheet : String) (m : OppMap) (cell : String)
    (m' : OppMap) (h : processCell now sheet m cell = Except.ok m') :
    ∀ p ∈ m', p ∈ m ∨ p.2 ∈ fiveLabelLists := by
  intro p hp
  unfold processCell at h
  split at h
  · cases h
  · split at h
    · split at h
      · cases h
      · split at h
        · cases h
          exact Or.inl hp
        · split at h
          · cases h
            exact Or.inl hp
          · split at h
            · cases h
              rcases mem_mapSet _ _ _ p hp with h' | h'
              · exact Or.inl h'
              · refine Or.inr ?_
                rw [h']
                exact saturdayLabels_mem _
            · split at h
              · cases h
                rcases mem_mapSet _ _ _ p hp with h' | h'
                · exact Or.inl h'
                · refine Or.inr ?_
                  rw [h']
                  exact sundayLabels_mem _
              · cases h
    · split at h
      · cases h
        exact Or.inl hp
      · split at h
        · split at h
          · cases h
          · cases h
            rcases mem_rangeLoop _ _ _ _ _ hp with h' | h'
            · exact Or.inl h'
            · refine Or.inr ?_
              rw [h']
              simp [fiveLabelLists]
        · cases h

theorem mem_processCells (now : Date) (sheet : String) :
    ∀ (cells : List String) (m m' : OppMap),
      processCells now sheet m cells = Except.ok m' →
      ∀ p ∈ m', p ∈ m ∨ p.2 ∈ fiveLabelLists := by
  intro cells
  induction cells with
  | nil =>
    intro m m' h p hp
    cases h
    exact Or.inl hp
  | cons c rest ih =>
    intro m m' h p hp
    unfold processCells at h
    split at h
    · rename_i m1 h1
      rcases ih m1 m' h p hp with h' | h'
      · rcases mem_processCell now sheet m c m1 h1 p h' with h'' | h''
        · exact Or.inl h''
        · exact Or.inr h''
      · exact Or.inr h'
    · cases h

theorem mem_processSheet (now : Date) (combined : Combined) (m m' : OppMap)
    (sheet : String) (h : processSheet now combined m sheet = Except.ok m') :
    ∀ p ∈ m', p ∈ m ∨ p.2 ∈ fiveLabelLists := by
  intro p hp
  unfold processSheet at h
  split at h
  · cases h
  · split at h
    · cases h
    · exact mem_processCells now sheet _ m m' h p hp

theorem mem_processSheets (now : Date) (combined : Combined) :
    ∀ (sheets : List String) (m m' : OppMap),
      processSheets now combined m sheets = Except.ok m' →
      ∀ p ∈ m', p ∈ m ∨ p.2 ∈ fiveLabelLists := by
  intro sheets
  induction sheets with
  | nil =>
    intro m m' h p hp
    cases h
    exact Or.inl hp
  | cons s rest ih =>
    intro m m' h p hp
    unfold processSheets at h
    split at h
    · rename_i m1 h1
      rcases ih m1 m' h p hp with h' | h'
      · rcases mem_processSheet now combined m m1 s h1 p h' with h'' | h''
        · exact Or.inl h''
        · exact Or.inr h''
      · exact Or.inr h'
    · cases h

/-- A successful run looked up every sheet it was asked to. -/
theorem processSheets_ok_lookup (now : Date) (combined : Combined) :
    ∀ (sheets : List String) (m m' : OppMap),
      processSheets now combined m sheets = Except.ok m' →
      ∀ s ∈ sheets, (lookupSheet combined s).isSome = true := by
  intro sheets
  induction sheets with
  | nil => intro m m' _ s hs; cases hs
  | cons s0 rest ih =>
    intro m m' h s hs
    unfold processSheets at h
    split at h
    · rename_i m1 h1
      rw [List.mem_cons] at hs
      rcases hs with hs | hs
      · subst hs
        unfold processSheet at h1
        split at h1
        · cases h1
        · rename_i rows hrows
          rw [hrows]
          rfl
      · exact ih m1 m' h s hs
    · cases h

/-- Error propagation: a fatal cell ends the cell loop. -/
theorem processCells_cons_error (now : Date) (sheet : String) (m : OppMap)
    (cell : String) (e : RunError) (h : processCell now sheet m cell = Except.error e) :
    ∀ rest, processCells now sheet m (cell :: rest) = Except.error e := by
  intro rest
  unfold processCells
  rw [h]

/-- The cell loop splits over list append. -/
theorem processCells_append (now : Date) (sheet : String) :
    ∀ (l1 l2 : List String) (m : OppMap),
      processCells now sheet m (l1 ++ l2)
        = match processCells now sheet m l1 with
          | Except.ok m1 => processCells now sheet m1 l2
          | Except.error e => Except.error e := by
  intro l1
  induction l1 with
  | nil => intro l2 m; rfl
  | cons c rest ih =>
    intro l2 m
    have heq1 : processCells now sheet m (c :: (rest ++ l2))
        = match processCell now sheet m c with
          | Except.ok m1 => processCells now sheet m1 (rest ++ l2)
          | Except.error e => Except.error e := rfl
    have heq2 : processCells now sheet m (c :: rest)
        = match processCell now sheet m c with
          | Except.ok m1 => processCells now sheet m1 rest
          | Except.error e => Except.error e := rfl
    rw [List.cons_append, heq1, heq2]
    cases hc : processCell now sheet m c with
    | ok m1 =>
      simp only
      exact ih l2 m1
    | error e => simp only

/-- Error propagation: a fatal sheet ends the sheet loop. -/
theorem processSheets_cons_error (now : Date) (combined : Combined) (m : OppMap)
    (sheet : String) (e : RunError)
    (h : processSheet now combined m sheet = Except.error e) :
    ∀ rest, processSheets now combined m (sheet :: rest) = Except.error e := by
  intro rest
  unfold processSheets
  rw [h]

end MigrateData

namespace MigrateData

/-! ### The append loop against the pre-existing table (specification view)

The specification describes Opportunity Merge as appending, per
`(date, label)` pair, exactly one synthesized row iff no *pre-existing*
row matches.  The code matches against the dataframe as it grows; the
following definitions state the specification's view (matching judged
against the original table only, one fresh row per unmatched pair), to be
proved equal to the code's loop. -/

/-- Some pre-existing row has a date field containing the date substring
and a label field equal to the label (the specification's matching
condition). -/
def pairMatched (df0 : List Row) (date label : String) : Bool :=
  df0.any (matchesRow date label)

/-- Following the specification's words: the rows synthesized for one
date's label list — one fresh row per label with no matching pre-existing
row in `df0`, skipping matched labels. -/
def specLabels (uuid : Nat → String) (createdAt : String) (df0 : List Row)
    (date : String) : Nat → List String → Except RunError (List Row × Nat)
  | ctr, [] => Except.ok ([], ctr)
  | ctr, label :: rest =>
    if pairMatched df0 date label then specLabels uuid createdAt df0 date ctr rest
    else
      match parseMDY date with
      | none => Except.error RunError.valueError
      | some d =>
        match specLabels uuid createdAt df0 date (ctr + 1) rest with
        | Except.ok (rows, c2) =>
          Except.ok (newRow (uuid ctr) createdAt d label :: rows, c2)
        | Except.error e => Except.error e

/-- Following the specification's words: all rows Opportunity Merge
appends, judged pair by pair against the pre-existing table `df0` only. -/
def specNewRows (uuid : Nat → String) (createdAt : String) (df0 : List Row) :
    Nat → List (String × List String) → Except RunError (List Row × Nat)
  | ctr, [] => Except.ok ([], ctr)
  | ctr, (date, labels) :: rest =>
    match specLabels uuid createdAt df0 date ctr labels with
    | Except.error e => Except.error e
    | Except.ok (rows, c2) =>
      match specNewRows uuid createdAt df0 c2 rest with
      | Except.ok (rows2, c3) => Except.ok (rows ++ rows2, c3)
      | Except.error e => Except.error e

theorem matchesRow_of_name_none (date label : String) (r : Row)
    (h : r.name = none) : matchesRow date label r = false := by
  simp [matchesRow, h]

theorem newRow_name (uid cAt : String) (d : Date) (label : String) :
    (newRow uid cAt d label).name = none := rfl

theorem filter_matches_append_none (df0 extra : List Row)
    (hextra : ∀ r ∈ extra, r.name = none) (date label : String) :
    (df0 ++ extra).filter (matchesRow date label)
      = df0.filter (matchesRow date label) := by
  rw [List.filter_append]
  have hnil : extra.filter (matchesRow date label) = [] := by
    rw [List.filter_eq_nil]
    intro r hr
    simp [matchesRow_of_name_none date label r (hextra r hr)]
  rw [hnil, List.append_nil]

theorem pairMatched_false_iff (df0 : List Row) (date label : String) :
    pairMatched df0 date label = false
      ↔ (df0.filter (matchesRow date label)).length = 0 := by
  simp [pairMatched, List.any_eq_false, List.length_eq_zero, List.filter_eq_nil]

theorem specLabels_names (uuid : Nat → String) (createdAt : String)
    (df0 : List Row) (date : String) :
    ∀ (labels : List String) (ctr : Nat) (rows : List Row) (c2 : Nat),
      specLabels uuid createdAt df0 date ctr labels = Except.ok (rows, c2) →
      ∀ r ∈ rows, r.name = none := by
  intro labels
  induction labels with
  | nil =>
    intro ctr rows c2 h r hr
    cases h
    cases hr
  | cons label rest ih =>
    intro ctr rows c2 h r hr
    unfold specLabels at h
    split at h
    · exact ih ctr rows c2 h r hr
    · cases hp : parseMDY date with
      | none =>
        rw [hp] at h
        cases h
      | some d =>
        rw [hp] at h
        cases hs : specLabels uuid createdAt df0 date (ctr + 1) rest with
        | error e =>
          rw [hs] at h
          cases h
        | ok p =>
          obtain ⟨rows', c2'⟩ := p
          rw [hs] at h
          simp only at h
          cases h
          rw [List.mem_cons] at hr
          rcases hr with hr | hr
          · rw [hr]
            rfl
          · exact ih _ _ _ hs r hr

theorem appendLabels_eq_spec (uuid : Nat → String) (createdAt : String)
    (date : String) :
    ∀ (labels : List String) (df0 extra : List Row) (ctr : Nat),
      (∀ r ∈ extra, r.name = none) →
      appendLabels uuid createdAt date (df0 ++ extra) ctr labels
        = match specLabels uuid createdAt df0 date ctr labels with
          | Except.ok (rows, c2) => Except.ok (df0 ++ extra ++ rows, c2)
          | Except.error e => Except.error e := by
  intro labels
  induction labels with
  | nil =>
    intro df0 extra ctr hextra
    simp [appendLabels, specLabels]
  | cons label rest ih =>
    intro df0 extra ctr hextra
    have hcond : ((df0 ++ extra).filter (matchesRow date label)).length
        = (df0.filter (matchesRow date label)).length := by
      rw [filter_matches_append_none df0 extra hextra]
    have heq1 : appendLabels uuid createdAt date (df0 ++ extra) ctr (label :: rest)
        = if ((df0 ++ extra).filter (matchesRow date label)).length = 0 then
            match parseMDY date with
            | none => Except.error RunError.valueError
            | some d =>
              appendLabels uuid createdAt date
                ((df0 ++ extra) ++ [newRow (uuid ctr) createdAt d label]) (ctr + 1) rest
          else appendLabels uuid createdAt date (df0 ++ extra) ctr rest := rfl
    rw [heq1]
    by_cases hmatched : pairMatched df0 date label = true
    · have hlen : ¬ ((df0 ++ extra).filter (matchesRow date label)).length = 0 := by
        rw [hcond]
        intro hc
        rw [← pairMatched_false_iff] at hc
        rw [hmatched] at hc
        cases hc
      rw [if_neg hlen]
      have hspec0 : specLabels uuid createdAt df0 date ctr (label :: rest)
          = if pairMatched df0 date label then
              specLabels uuid createdAt df0 date ctr rest
            else
              match parseMDY date with
              | none => Except.error RunError.valueError
              | some d =>
                match specLabels uuid createdAt df0 date (ctr + 1) rest with
                | Except.ok (rows, c2) =>
                  Except.ok (newRow (uuid ctr) createdAt d label :: rows, c2)
                | Except.error e => Except.error e := rfl
      rw [hspec0, if_pos hmatched]
      exact ih df0 extra ctr hextra
    · have hm : pairMatched df0 date label = false := by
        cases hb : pairMatched df0 date label
        · rfl
        · exact absurd hb hmatched
      have hlen : ((df0 ++ extra).filter (matchesRow date label)).length = 0 := by
        rw [hcond, ← pairMatched_false_iff]
        exact hm
      rw [if_pos hlen]
      have hspec0 : specLabels uuid createdAt df0 date ctr (label :: rest)
          = if pairMatched df0 date label then
              specLabels uuid createdAt df0 date ctr rest
            else
              match parseMDY date with
              | none => Except.error RunError.valueError
              | some d =>
                match specLabels uuid createdAt df0 date (ctr + 1) rest with
                | Except.ok (rows, c2) =>
                  Except.ok (newRow (uuid ctr) createdAt d label :: rows, c2)
                | Except.error e => Except.error e := rfl
      rw [hspec0, if_neg (by rw [hm]; simp)]
      cases hp : parseMDY date with
      | none => simp only
      | some d =>
        simp only
        have hextra' : ∀ r ∈ extra ++ [newRow (uuid ctr) createdAt d label], r.name = none := by
          intro r hr
          rw [List.mem_append] at hr
          rcases hr with hr | hr
          · exact hextra r hr
          · rw [List.mem_singleton] at hr
            rw [hr]
            rfl
        have hrec := ih df0 (extra ++ [newRow (uuid ctr) createdAt d label]) (ctr + 1) hextra'
        rw [← List.append_assoc df0 extra [newRow (uuid ctr) createdAt d label]] at hrec
        rw [hrec]
        cases hs : specLabels uuid createdAt df0 date (ctr + 1) rest with
        | ok p =>
          obtain ⟨rows, c2⟩ := p
          simp only [List.append_assoc, List.singleton_append]
        | error e => simp only

end MigrateData

namespace MigrateData

theorem appendRows_eq_spec (uuid : Nat → String) (createdAt : String) :
    ∀ (pairs : List (String × List String)) (df0 extra : List Row) (ctr : Nat),
      (∀ r ∈ extra, r.name = none) →
      appendRows uuid createdAt (df0 ++ extra) ctr pairs
        = match specNewRows uuid createdAt df0 ctr pairs with
          | Except.ok (rows, c2) => Except.ok (df0 ++ extra ++ rows, c2)
          | Except.error e => Except.error e := by
  intro pairs
  induction pairs with
  | nil =>
    intro df0 extra ctr hextra
    simp [appendRows, specNewRows]
  | cons pr rest ih =>
    intro df0 extra ctr hextra
    obtain ⟨date, labels⟩ := pr
    have heq1 : appendRows uuid createdAt (df0 ++ extra) ctr ((date, labels) :: rest)
        = match appendLabels uuid createdAt date (df0 ++ extra) ctr labels with
          | Except.error e => Except.error e
          | Except.ok (df2, c2) => appendRows uuid createdAt df2 c2 rest := rfl
    have heq2 : specNewRows uuid createdAt df0 ctr ((date, labels) :: rest)
        = match specLabels uuid createdAt df0 date ctr labels with
          | Except.error e => Except.error e
          | Except.ok (rows, c2) =>
            match specNewRows uuid createdAt df0 c2 rest with
            | Except.ok (rows2, c3) => Except.ok (rows ++ rows2, c3)
            | Except.error e => Except.error e := rfl
    rw [heq1, heq2, appendLabels_eq_spec uuid createdAt date labels df0 extra ctr hextra]
    cases hs : specLabels uuid createdAt df0 date ctr labels with
    | error e => simp only
    | ok p =>
      obtain ⟨rows, c2⟩ := p
      simp only
      have hextra2 : ∀ r ∈ extra ++ rows, r.name = none := by
        intro r hr
        rw [List.mem_append] at hr
        rcases hr with hr | hr
        · exact hextra r hr
        · exact specLabels_names uuid createdAt df0 date labels ctr rows c2 hs r hr
      have hrec := ih df0 (extra ++ rows) c2 hextra2
      rw [← List.append_assoc df0 extra rows] at hrec
      rw [hrec]
      cases hs2 : specNewRows uuid createdAt df0 c2 rest with
      | error e => simp only
      | ok p2 =>
        obtain ⟨rows2, c3⟩ := p2
        simp only [List.append_assoc]

theorem mergeOpps_eq_spec (now : Date) (uuid : Nat → String) (createdAt : String)
    (df : List Row) (legacy : OppMap) (df' : List Row)
    (h : mergeOpps now uuid createdAt df legacy = Except.ok df') :
    ∃ rows n, specNewRows uuid createdAt df 0 legacy = Except.ok (rows, n)
      ∧ df' = df ++ rows := by
  unfold mergeOpps at h
  split at h
  · cases h
  · have hap := appendRows_eq_spec uuid createdAt legacy df [] 0 (by intro r hr; cases hr)
    rw [List.append_nil] at hap
    rw [hap] at h
    cases hs : specNewRows uuid createdAt df 0 legacy with
    | error e =>
      rw [hs] at h
      cases h
    | ok p =>
      obtain ⟨rows, n⟩ := p
      rw [hs] at h
      simp only at h
      cases h
      exact ⟨rows, n, rfl, rfl⟩

/-! ### Validation-pass lemmas -/

theorem validateRows_ok_of (now : Date) (legacy : OppMap) :
    ∀ rows : List Row,
      (∀ r ∈ rows, ∀ d, rowDate r = some d →
        (mapLookup legacy (renderMDY d)).isSome = true ∨ dateLt now d = true) →
      (∀ r ∈ rows, (rowDate r).isSome = true) →
      validateRows now legacy rows = Except.ok () := by
  intro rows
  induction rows with
  | nil => intro _ _; rfl
  | cons r rest ih =>
    intro hgood hall
    have hsome := hall r (List.mem_cons_self _ _)
    cases hd : rowDate r with
    | none => rw [hd] at hsome; cases hsome
    | some d =>
      have heq : validateRows now legacy (r :: rest)
          = match rowDate r with
            | none => Except.error RunError.valueError
            | some d =>
              if (mapLookup legacy (renderMDY d)).isSome then validateRows now legacy rest
              else if dateLt now d then validateRows now legacy rest
              else Except.error (RunError.exitMsg ("Not in opportunities " ++ renderMDY d)) := rfl
      rw [heq, hd]
      simp only
      rcases hgood r (List.mem_cons_self _ _) d hd with hg | hg
      · rw [hg]
        simp only [if_true]
        exact ih (fun r' hr' => hgood r' (List.mem_cons_of_mem _ hr'))
          (fun r' hr' => hall r' (List.mem_cons_of_mem _ hr'))
      · have : validateRows now legacy rest = Except.ok () :=
          ih (fun r' hr' => hgood r' (List.mem_cons_of_mem _ hr'))
            (fun r' hr' => hall r' (List.mem_cons_of_mem _ hr'))
        rw [hg]
        split <;> simp [this]

theorem validateRows_error_of (now : Date) (legacy : OppMap) :
    ∀ rows : List Row,
      (∃ r ∈ rows, ∃ d, rowDate r = some d ∧
        mapLookup legacy (renderMDY d) = none ∧ dateLt now d = false) →
      (∀ r ∈ rows, (rowDate r).isSome = true) →
      ∃ msg, validateRows now legacy rows = Except.error (RunError.exitMsg msg) := by
  intro rows
  induction rows with
  | nil => intro hbad _; obtain ⟨r, hr, _⟩ := hbad; cases hr
  | cons r rest ih =>
    intro hbad hall
    have hsome := hall r (List.mem_cons_self _ _)
    cases hd : rowDate r with
    | none => rw [hd] at hsome; cases hsome
    | some d =>
      have heq : validateRows now legacy (r :: rest)
          = match rowDate r with
            | none => Except.error RunError.valueError
            | some d =>
              if (mapLookup legacy (renderMDY d)).isSome then validateRows now legacy rest
              else if dateLt now d then validateRows now legacy rest
              else Except.error (RunError.exitMsg ("Not in opportunities " ++ renderMDY d)) := rfl
      rw [heq, hd]
      simp only
      by_cases hlk : (mapLookup legacy (renderMDY d)).isSome = true
      · rw [hlk]
        simp only [if_true]
        apply ih ?_ (fun r' hr' => hall r' (List.mem_cons_of_mem _ hr'))
        obtain ⟨r0, hr0, d0, hd0, hnone0, hfut0⟩ := hbad
        rw [List.mem_cons] at hr0
        rcases hr0 with hr0 | hr0
        · subst hr0
          rw [hd] at hd0
          cases hd0
          rw [hnone0] at hlk
          cases hlk
        · exact ⟨r0, hr0, d0, hd0, hnone0, hfut0⟩
      · have hlkf : (mapLookup legacy (renderMDY d)).isSome = false := by
          cases hb : (mapLookup legacy (renderMDY d)).isSome
          · rfl
          · exact absurd hb hlk
        rw [hlkf]
        simp only [Bool.false_eq_true, if_false]
        by_cases hfut : dateLt now d = true
        · rw [hfut]
          simp only [if_true]
          apply ih ?_ (fun r' hr' => hall r' (List.mem_cons_of_mem _ hr'))
          obtain ⟨r0, hr0, d0, hd0, hnone0, hfut0⟩ := hbad
          rw [List.mem_cons] at hr0
          rcases hr0 with hr0 | hr0
          · subst hr0
            rw [hd] at hd0
            cases hd0
            rw [hfut] at hfut0
            cases hfut0
          · exact ⟨r0, hr0, d0, hd0, hnone0, hfut0⟩
        · have hff : dateLt now d = false := by
            cases hb : dateLt now d
            · rfl
            · exact absurd hb hfut
          rw [hff]
          simp only [Bool.false_eq_true, if_false]
          exact ⟨"Not in opportunities " ++ renderMDY d, rfl⟩

theorem mergeOpps_error_of_validate (now : Date) (uuid : Nat → String)
    (createdAt : String) (df : List Row) (legacy : OppMap) (e : RunError)
    (h : validateRows now legacy df = Except.error e) :
    mergeOpps now uuid createdAt df legacy = Except.error e := by
  unfold mergeOpps
  rw [h]

end MigrateData

namespace MigrateData

/-! ### Branch characterizations of `processCell` -/

theorem processCell_literal (now : Date) (sheet : String) (m : OppMap)
    (cell col : String) (d : Date)
    (hre : reinterp cell = Except.ok col)
    (hshape : mdyShape col = true)
    (hparse : parseMDY col = some d) :
    processCell now sheet m cell
      = if dateLt now d then Except.ok m
        else if d = missed_day then Except.ok m
        else if weekday d = 5 then
          Except.ok (mapSet m (renderMDY d) (saturdayLabels d))
        else if weekday d = 6 then
          Except.ok (mapSet m (renderMDY d) (sundayLabels d))
        else
          Except.error (RunError.exitMsg
            ("Unexpected weekday for date column " ++ col ++ " in sheet " ++ sheet)) := by
  unfold processCell
  rw [hre]
  simp only [hshape, hparse, if_true]

theorem processCell_ignored (now : Date) (sheet : String) (m : OppMap)
    (cell col : String)
    (hre : reinterp cell = Except.ok col)
    (hshape : mdyShape col = false)
    (hign : ignored_columns.contains col = true) :
    processCell now sheet m cell = Except.ok m := by
  unfold processCell
  rw [hre]
  simp only [hshape, hign, Bool.false_eq_true, if_false, if_true]

theorem processCell_range (now : Date) (sheet : String) (m : OppMap)
    (cell col : String) (startD endD : Date)
    (hre : reinterp cell = Except.ok col)
    (hshape : mdyShape col = false)
    (hign : ignored_columns.contains col = false)
    (hr : rangeShape col = true)
    (hparse : parseRange col = some (startD, endD)) :
    processCell now sheet m cell
      = Except.ok (rangeLoop endD (rangeFuel startD endD) startD m) := by
  unfold processCell
  rw [hre]
  simp only [hshape, hign, hr, hparse, Bool.false_eq_true, if_false, if_true]

theorem processCell_unrecognized (now : Date) (sheet : String) (m : OppMap)
    (cell col : String)
    (hre : reinterp cell = Except.ok col)
    (hshape : mdyShape col = false)
    (hign : ignored_columns.contains col = false)
    (hr : rangeShape col = false) :
    processCell now sheet m cell
      = Except.error (RunError.exitMsg
          ("Not a date string: \"" ++ col ++ "\" in sheet " ++ sheet)) := by
  unfold processCell
  rw [hre]
  simp only [hshape, hign, hr, Bool.false_eq_true, if_false]

end MigrateData

namespace MigrateData

/-! ### Claim theorems -/

/-- C1: for a header cell parsing as a literal date `M/D/YYYY` (possibly
after ISO reinterpretation), not after run time and not the missed day:
a Saturday strictly before 4/5/2025 is mapped to exactly `[Meal Prep]`;
a Saturday on/after 4/5/2025 and strictly before 10/18/2025 to exactly
`[seventh, Meal Prep]`; a Saturday on/after 10/18/2025 to exactly
`[riverside, seventh, Meal Prep]`; a Sunday strictly before 4/5/2025 to
exactly `[seventh]`; a Sunday on/after 4/5/2025 to exactly `[menchaca]`. -/
theorem claim_C1_literal_classification (now : Date) (sheet : String) (m : OppMap)
    (cell col : String) (d : Date)
    (hre : reinterp cell = Except.ok col)
    (hshape : mdyShape col = true)
    (hparse : parseMDY col = some d)
    (hfut : dateLt now d = false)
    (hmiss : d ≠ missed_day) :
    (weekday d = 5 → dateLt d first_day_of_saturday = true →
      processCell now sheet m cell = Except.ok (mapSet m (renderMDY d) [meal_prep]) ∧
      mapLookup (mapSet m (renderMDY d) [meal_prep]) (renderMDY d) = some [meal_prep]) ∧
    (weekday d = 5 → dateLt d first_day_of_saturday = false →
      dateLt d first_day_of_riverside = true →
      processCell now sheet m cell
        = Except.ok (mapSet m (renderMDY d) [seventh, meal_prep]) ∧
      mapLookup (mapSet m (renderMDY d) [seventh, meal_prep]) (renderMDY d)
        = some [seventh, meal_prep]) ∧
    (weekday d = 5 → dateLt d first_day_of_riverside = false →
      processCell now sheet m cell
        = Except.ok (mapSet m (renderMDY d) [riverside, seventh, meal_prep]) ∧
      mapLookup (mapSet m (renderMDY d) [riverside, seventh, meal_prep]) (renderMDY d)
        = some [riverside, seventh, meal_prep]) ∧
    (weekday d = 6 → dateLt d first_day_of_saturday = true →
      processCell now sheet m cell = Except.ok (mapSet m (renderMDY d) [seventh]) ∧
      mapLookup (mapSet m (renderMDY d) [seventh]) (renderMDY d) = some [seventh]) ∧
    (weekday d = 6 → dateLt d first_day_of_saturday = false →
      processCell now sheet m cell = Except.ok (mapSet m (renderMDY d) [menchaca]) ∧
      mapLookup (mapSet m (renderMDY d) [menchaca]) (renderMDY d) = some [menchaca]) := by
  have hbase := processCell_literal now sheet m cell col d hre hshape hparse
  rw [hfut] at hbase
  simp only [Bool.false_eq_true, if_false, if_neg hmiss] at hbase
  refine ⟨?_, ?_, ?_, ?_, ?_⟩
  · intro hw hera
    have hlab : saturdayLabels d = [meal_prep] := by
      unfold saturdayLabels
      rw [hera]
      simp
    rw [hw] at hbase
    simp only [if_true] at hbase
    rw [hlab] at hbase
    exact ⟨hbase, mapLookup_mapSet_self _ _ _⟩
  · intro hw hera1 hera2
    have hlab : saturdayLabels d = [seventh, meal_prep] := by
      unfold saturdayLabels
      rw [hera1, hera2]
      simp
    rw [hw] at hbase
    simp only [if_true] at hbase
    rw [hlab] at hbase
    exact ⟨hbase, mapLookup_mapSet_self _ _ _⟩
  · intro hw hera2
    have hera1 : dateLt d first_day_of_saturday = false := by
      have hmono : rataDie first_day_of_saturday ≤ rataDie first_day_of_riverside := by
        decide
      simp only [dateLt, decide_eq_false_iff_not] at hera2 ⊢
      omega
    have hlab : saturdayLabels d = [riverside, seventh, meal_prep] := by
      unfold saturdayLabels
      rw [hera1, hera2]
      simp
    rw [hw] at hbase
    simp only [if_true] at hbase
    rw [hlab] at hbase
    exact ⟨hbase, mapLookup_mapSet_self _ _ _⟩
  · intro hw hera
    have hlab : sundayLabels d = [seventh] := by
      unfold sundayLabels
      rw [hera]
      simp
    rw [hw] at hbase
    norm_num at hbase
    rw [hlab] at hbase
    exact ⟨hbase, mapLookup_mapSet_self _ _ _⟩
  · intro hw hera
    have hlab : sundayLabels d = [menchaca] := by
      unfold sundayLabels
      rw [hera]
      simp
    rw [hw] at hbase
    norm_num at hbase
    rw [hlab] at hbase
    exact ⟨hbase, mapLookup_mapSet_self _ _ _⟩

/-- C1 witness: the boundary Saturday 4/5/2025 lands in the
`[seventh, Meal Prep]` bucket. -/
theorem claim_C1_witness :
    processCell ⟨2026, 1, 1⟩ "2025 Saturday Handout" [] "4/5/2025"
      = Except.ok (mapSet [] "4/5/2025" [seventh, meal_prep]) ∧
    mapLookup (mapSet [] "4/5/2025" [seventh, meal_prep]) "4/5/2025"
      = some [seventh, meal_prep] := by
  have h := claim_C1_literal_classification ⟨2026, 1, 1⟩ "2025 Saturday Handout" []
    "4/5/2025" "4/5/2025" ⟨2025, 4, 5⟩ rfl rfl rfl rfl (by decide)
  exact h.2.1 rfl rfl rfl

/-- C9: every value of the classifier's output map is one of the five
fixed label lists (so never empty, never another label or ordering). -/
theorem claim_C9_label_invariant (now : Date) (combined : Combined) (m : OppMap)
    (h : get_legacy_opportunities now combined = Except.ok m) :
    ∀ p ∈ m, p.2 ∈ fiveLabelLists := by
  intro p hp
  rcases mem_processSheets now combined sheets_of_interest [] m h p hp with h' | h'
  · cases h'
  · exact h'

/-- C9 witness: a run over a small workbook whose one date column is the
Saturday 3/2/2024 yields a map value among the five lists. -/
theorem claim_C9_witness : ([meal_prep] : List String) ∈ fiveLabelLists :=
  claim_C9_label_invariant ⟨2026, 1, 1⟩
    [("2024 Handouts", [["3/2/2024"]]), ("2024 Meal Prep", [["Volunteers:"]]),
     ("2025 Saturday Handout", [["Volunteers:"]]), ("2025 Sunday Handouts", [["Volunteers:"]]),
     ("2025 Meal Prep", [["Volunteers:"]]), ("2026 Saturday Handout", [["Volunteers:"]]),
     ("2026 Sunday Handouts", [["Volunteers:"]]), ("2026 Meal Prep", [["Volunteers:"]])]
    [("3/2/2024", [meal_prep])] rfl ("3/2/2024", [meal_prep]) (by simp)

/-- C10: the classifier indexes all eight configured sheets
unconditionally — a combined dataset missing any one of them makes the
run end in a lookup error (the `KeyError` of dict indexing), never in a
returned map. -/
theorem claim_C10_missing_sheet (now : Date) (combined : Combined) (s : String)
    (hs : s ∈ sheets_of_interest) (hmiss : lookupSheet combined s = none) :
    (∀ m, get_legacy_opportunities now combined ≠ Except.ok m) ∧
    (∀ m0, processSheet now combined m0 s = Except.error (RunError.keyError s)) := by
  constructor
  · intro m hok
    have hlk := processSheets_ok_lookup now combined sheets_of_interest [] m hok s hs
    rw [hmiss] at hlk
    cases hlk
  · intro m0
    unfold processSheet
    rw [hmiss]

/-- C10 witness: an empty combined dataset is missing `2024 Handouts`. -/
theorem claim_C10_witness :
    (∀ m, get_legacy_opportunities ⟨2026, 1, 1⟩ [] ≠ Except.ok m) ∧
    (∀ m0, processSheet ⟨2026, 1, 1⟩ [] m0 "2024 Handouts"
      = Except.error (RunError.keyError "2024 Handouts")) :=
  claim_C10_missing_sheet ⟨2026, 1, 1⟩ [] "2024 Handouts" (by simp [sheets_of_interest]) rfl

end MigrateData

namespace MigrateData

/-- C5: within one run the overwrite rule is asymmetric.  A literal-date
header always overwrites an existing entry for the same date (the map
ends up holding the freshly classified labels no matter what was there);
a date-range header never overwrites an existing entry, and every entry
it adds is `[seventh]` for a Sunday inside the range, other than the
missed day, that was not yet present. -/
theorem claim_C5_overwrite_asymmetry (now : Date) (sheet : String) (m : OppMap)
    (cell col : String) :
    (∀ (d : Date) (vOld : List String),
      reinterp cell = Except.ok col → mdyShape col = true → parseMDY col = some d →
      dateLt now d = false → d ≠ missed_day → (weekday d = 5 ∨ weekday d = 6) →
      mapLookup m (renderMDY d) = some vOld →
      ∃ vNew, processCell now sheet m cell = Except.ok (mapSet m (renderMDY d) vNew) ∧
        mapLookup (mapSet m (renderMDY d) vNew) (renderMDY d) = some vNew) ∧
    (∀ (startD endD : Date) (m' : OppMap),
      reinterp cell = Except.ok col → mdyShape col = false →
      ignored_columns.contains col = false → rangeShape col = true →
      parseRange col = some (startD, endD) →
      processCell now sheet m cell = Except.ok m' →
      (∀ k v, mapLookup m k = some v → mapLookup m' k = some v) ∧
      (∀ k v, mapLookup m k = none → mapLookup m' k = some v →
        v = [seventh] ∧ ∃ dd : Date, validDate dd = true ∧ weekday dd = 6 ∧
          dd ≠ missed_day ∧ dateLe startD dd = true ∧ dateLe dd endD = true ∧
          k = renderMDY dd)) := by
  constructor
  · intro d vOld hre hshape hparse hfut hmiss hw _
    have hbase := processCell_literal now sheet m cell col d hre hshape hparse
    rw [hfut] at hbase
    simp only [Bool.false_eq_true, if_false, if_neg hmiss] at hbase
    rcases hw with hw | hw
    · rw [hw] at hbase
      norm_num at hbase
      exact ⟨saturdayLabels d, hbase, mapLookup_mapSet_self _ _ _⟩
    · rw [hw] at hbase
      norm_num at hbase
      exact ⟨sundayLabels d, hbase, mapLookup_mapSet_self _ _ _⟩
  · intro startD endD m' hre hshape hign hr hparse hproc
    have hbase := processCell_range now sheet m cell col startD endD hre hshape hign hr hparse
    rw [hbase] at hproc
    have hm' : m' = rangeLoop endD (rangeFuel startD endD) startD m :=
      (Except.ok.inj hproc).symm
    subst hm'
    constructor
    · intro k v hv
      exact rangeLoop_preserves endD (rangeFuel startD endD) startD m k v hv
    · intro k v hnone hsome
      exact rangeLoop_adds endD (rangeFuel startD endD) startD m k v
        (parseRange_valid col startD endD hparse).1 hnone hsome

/-- C5 witness: the literal Sunday 3/30/2025 overwrites an existing
entry for its date, while the range header 1/10/2026–1/17/2026 leaves an
existing entry for the Sunday 1/11/2026 untouched. -/
theorem claim_C5_witness :
    (∃ vNew, processCell ⟨2026, 1, 1⟩ "S" [("3/30/2025", [meal_prep])] "3/30/2025"
        = Except.ok (mapSet [("3/30/2025", [meal_prep])] "3/30/2025" vNew) ∧
      mapLookup (mapSet [("3/30/2025", [meal_prep])] "3/30/2025" vNew) "3/30/2025"
        = some vNew) ∧
    mapLookup [("1/11/2026", ["X"])] "1/11/2026" = some ["X"] := by
  constructor
  · exact (claim_C5_overwrite_asymmetry ⟨2026, 1, 1⟩ "S" [("3/30/2025", [meal_prep])]
      "3/30/2025" "3/30/2025").1 ⟨2025, 3, 30⟩ [meal_prep] rfl rfl rfl rfl (by decide)
      (Or.inr rfl) rfl
  · exact ((claim_C5_overwrite_asymmetry ⟨2026, 1, 1⟩ "S" [("1/11/2026", ["X"])]
      "1/10/2026-1/17/2026" "1/10/2026-1/17/2026").2 ⟨2026, 1, 10⟩ ⟨2026, 1, 17⟩
      [("1/11/2026", ["X"])] rfl rfl rfl rfl rfl rfl).1 "1/11/2026" ["X"] rfl

/-- C7: a literal-date header on a past, non-missed date that is neither
a Saturday nor a Sunday aborts the run with a diagnostic naming the
column and sheet: the cell itself evaluates to the fatal exit, the cell
loop stops there whatever columns follow, and the sheet loop stops there
whatever sheets follow, so no map entry is recorded. -/
theorem claim_C7_weekday_abort (now : Date) (sheet : String) (m : OppMap)
    (cell col : String) (d : Date)
    (hre : reinterp cell = Except.ok col)
    (hshape : mdyShape col = true)
    (hparse : parseMDY col = some d)
    (hfut : dateLt now d = false)
    (hmiss : d ≠ missed_day)
    (hw5 : weekday d ≠ 5)
    (hw6 : weekday d ≠ 6) :
    processCell now sheet m cell
      = Except.error (RunError.exitMsg
          ("Unexpected weekday for date column " ++ col ++ " in sheet " ++ sheet)) ∧
    (∀ rest, processCells now sheet m (cell :: rest)
      = Except.error (RunError.exitMsg
          ("Unexpected weekday for date column " ++ col ++ " in sheet " ++ sheet))) ∧
    (∀ (combined : Combined) (rows : List (List String)) (pre post : List String)
        (m0 : OppMap) (moreSheets : List String),
      lookupSheet combined sheet = some rows →
      rows.head? = some (pre ++ cell :: post) →
      processCells now sheet m0 pre = Except.ok m →
      processSheets now combined m0 (sheet :: moreSheets)
        = Except.error (RunError.exitMsg
            ("Unexpected weekday for date column " ++ col ++ " in sheet " ++ sheet))) := by
  have hcell : processCell now sheet m cell
      = Except.error (RunError.exitMsg
          ("Unexpected weekday for date column " ++ col ++ " in sheet " ++ sheet)) := by
    have hbase := processCell_literal now sheet m cell col d hre hshape hparse
    rw [hfut] at hbase
    simp only [Bool.false_eq_true, if_false, if_neg hmiss, if_neg hw5, if_neg hw6] at hbase
    exact hbase
  refine ⟨hcell, processCells_cons_error now sheet m cell _ hcell, ?_⟩
  intro combined rows pre post m0 moreSheets hlk hhead hpre
  have hcells : processCells now sheet m0 (pre ++ cell :: post)
      = Except.error (RunError.exitMsg
          ("Unexpected weekday for date column " ++ col ++ " in sheet " ++ sheet)) := by
    rw [processCells_append now sheet pre (cell :: post) m0, hpre]
    exact processCells_cons_error now sheet m cell _ hcell post
  have hsheet : processSheet now combined m0 sheet
      = Except.error (RunError.exitMsg
          ("Unexpected weekday for date column " ++ col ++ " in sheet " ++ sheet)) := by
    unfold processSheet
    rw [hlk]
    simp only
    rw [hhead]
    exact hcells
  exact processSheets_cons_error now combined m0 sheet _ hsheet moreSheets

/-- C7 witness: the Monday 3/4/2024 in a one-column sheet. -/
theorem claim_C7_witness :
    processCell ⟨2026, 1, 1⟩ "2024 Handouts" [] "3/4/2024"
      = Except.error (RunError.exitMsg
          ("Unexpected weekday for date column " ++ "3/4/2024"
            ++ " in sheet " ++ "2024 Handouts")) ∧
    processSheets ⟨2026, 1, 1⟩ [("2024 Handouts", [["3/4/2024"]])] [] ["2024 Handouts"]
      = Except.error (RunError.exitMsg
          ("Unexpected weekday for date column " ++ "3/4/2024"
            ++ " in sheet " ++ "2024 Handouts")) := by
  have h := claim_C7_weekday_abort ⟨2026, 1, 1⟩ "2024 Handouts" [] "3/4/2024" "3/4/2024"
    ⟨2024, 3, 4⟩ rfl rfl rfl rfl (by decide) (by decide) (by decide)
  refine ⟨h.1, ?_⟩
  exact h.2.2 [("2024 Handouts", [["3/4/2024"]])] [["3/4/2024"]] [] [] [] [] rfl rfl rfl

end MigrateData

namespace MigrateData

/-- A minimal opportunities-table row carrying only a `datetime` value,
as a CSV row with every other field empty. -/
def mkRow (dtStr : String) : Row :=
  { id := none
    image_url := none
    title := none
    datetime := dtStr
    location := none
    description := none
    spot_left := none
    created_at := none
    ended := none
    start_time := none
    end_time := none
    redemption_code := none
    hours_approved := none
    location_link := none
    name := none }

/-- C6: before appending anything, the merge aborts with a fatal
diagnostic whenever some existing row has an already-occurred date (not
after run time) that the classifier's map does not explain; rows whose
date is in the map, and future-dated rows absent from the map, never
trigger the abort (the validation pass succeeds when every row is of one
of those two kinds). -/
theorem claim_C6_validation_abort (now : Date) (uuid : Nat → String)
    (createdAt : String) (legacy : OppMap) (rows : List Row)
    (hall : ∀ r ∈ rows, (rowDate r).isSome = true) :
    ((∃ r ∈ rows, ∃ d, rowDate r = some d ∧
        mapLookup legacy (renderMDY d) = none ∧ dateLt now d = false) →
      ∃ msg, mergeOpps now uuid createdAt rows legacy
        = Except.error (RunError.exitMsg msg)) ∧
    ((∀ r ∈ rows, ∀ d, rowDate r = some d →
        (mapLookup legacy (renderMDY d)).isSome = true ∨ dateLt now d = true) →
      validateRows now legacy rows = Except.ok ()) := by
  constructor
  · intro hbad
    obtain ⟨msg, hv⟩ := validateRows_error_of now legacy rows hbad hall
    exact ⟨msg, mergeOpps_error_of_validate now uuid createdAt rows legacy _ hv⟩
  · intro hgood
    exact validateRows_ok_of now legacy rows hgood hall

/-- C6 witness: a past row dated 3/2/2024 with an empty map aborts; the
same row with its date in the map validates. -/
theorem claim_C6_witness :
    (∃ msg, mergeOpps ⟨2026, 1, 1⟩ (fun _ => "u") "c"
        [mkRow "2024-03-02 10:00:00+0000"] []
      = Except.error (RunError.exitMsg msg)) ∧
    validateRows ⟨2026, 1, 1⟩ [("3/2/2024", [meal_prep])]
      [mkRow "2024-03-02 10:00:00+0000"] = Except.ok () := by
  constructor
  · exact (claim_C6_validation_abort ⟨2026, 1, 1⟩ (fun _ => "u") "c" []
      [mkRow "2024-03-02 10:00:00+0000"]
      (by intro r hr; rw [List.mem_singleton] at hr; rw [hr]; rfl)).1
      ⟨mkRow "2024-03-02 10:00:00+0000", List.mem_singleton.mpr rfl,
        ⟨2024, 3, 2⟩, rfl, rfl, rfl⟩
  · exact (claim_C6_validation_abort ⟨2026, 1, 1⟩ (fun _ => "u") "c"
      [("3/2/2024", [meal_prep])] [mkRow "2024-03-02 10:00:00+0000"]
      (by intro r hr; rw [List.mem_singleton] at hr; rw [hr]; rfl)).2
      (by
        intro r hr d hd
        rw [List.mem_singleton] at hr
        subst hr
        cases hd
        exact Or.inl rfl)

/-- C2: a successful merge run appends, per `(date, label)` pair of the
classifier's map and in order, exactly one synthesized row (`newRow`:
fresh identifier from the uuid oracle, the label as title,
`YYYY-MM-DD 09:00:00-0500` timestamp, placeholder location, description
and start/end text, zero `spot_left`, `Ended = "t"`) iff no pre-existing
row has a datetime containing the `M/D/YYYY` substring and a `name`
equal to the label — matching judged against the pre-existing table, as
`specNewRows` states following the specification's words. -/
theorem claim_C2_append_iff_unmatched (now : Date) (uuid : Nat → String)
    (createdAt : String) (df : List Row) (legacy : OppMap) (df' : List Row)
    (h : mergeOpps now uuid createdAt df legacy = Except.ok df') :
    ∃ rows n, specNewRows uuid createdAt df 0 legacy = Except.ok (rows, n)
      ∧ df' = df ++ rows :=
  mergeOpps_eq_spec now uuid createdAt df legacy df' h

/-- C2 witness: one unmatched pair appends exactly its one synthesized
row. -/
theorem claim_C2_witness :
    ∃ rows n, specNewRows (fun _ => "u") "c" [] 0 [("4/5/2025", [meal_prep])]
        = Except.ok (rows, n)
      ∧ [newRow "u" "c" ⟨2025, 4, 5⟩ meal_prep] = [] ++ rows :=
  claim_C2_append_iff_unmatched ⟨2026, 1, 1⟩ (fun _ => "u") "c" []
    [("4/5/2025", [meal_prep])] [newRow "u" "c" ⟨2025, 4, 5⟩ meal_prep] rfl

/-- C4 counterexample: with run time 1/1/2026, the range header
`1/10/2026-1/17/2026` puts the strictly future Sunday 1/11/2026 into the
output map — the date-range branch does not exclude future dates. -/
theorem claim_C4_counterexample :
    processCell ⟨2026, 1, 1⟩ "2026 Sunday Handouts" [] "1/10/2026-1/17/2026"
      = Except.ok [("1/11/2026", [seventh])] ∧
    dateLt ⟨2026, 1, 1⟩ ⟨2026, 1, 11⟩ = true ∧
    renderMDY ⟨2026, 1, 11⟩ = "1/11/2026" ∧
    mapLookup [("1/11/2026", [seventh])] "1/11/2026" = some [seventh] :=
  ⟨rfl, rfl, rfl, rfl⟩

/-- C4 amended: the literal-date branch skips future dates and the
missed day 3/3/2024 (the map is returned unchanged); the date-range
branch never adds the missed day — every entry it adds is a Sunday in
the range other than 3/3/2024 — but it does not exclude future dates. -/
theorem claim_C4_amended_exclusions (now : Date) (sheet : String) (m : OppMap)
    (cell col : String) :
    (∀ d : Date, reinterp cell = Except.ok col → mdyShape col = true →
      parseMDY col = some d → dateLt now d = true →
      processCell now sheet m cell = Except.ok m) ∧
    (∀ d : Date, reinterp cell = Except.ok col → mdyShape col = true →
      parseMDY col = some d → d = missed_day →
      processCell now sheet m cell = Except.ok m) ∧
    (∀ (startD endD : Date) (m' : OppMap),
      reinterp cell = Except.ok col → mdyShape col = false →
      ignored_columns.contains col = false → rangeShape col = true →
      parseRange col = some (startD, endD) →
      processCell now sheet m cell = Except.ok m' →
      ∀ k v, mapLookup m k = none → mapLookup m' k = some v →
        ∃ dd : Date, weekday dd = 6 ∧ dd ≠ missed_day ∧
          dateLe startD dd = true ∧ dateLe dd endD = true ∧ k = renderMDY dd) := by
  refine ⟨?_, ?_, ?_⟩
  · intro d hre hshape hparse hfut
    have hbase := processCell_literal now sheet m cell col d hre hshape hparse
    rw [hfut] at hbase
    simpa using hbase
  · intro d hre hshape hparse hmiss
    have hbase := processCell_literal now sheet m cell col d hre hshape hparse
    rw [hmiss] at hbase
    cases hb : dateLt now missed_day with
    | true =>
      rw [hb] at hbase
      simpa using hbase
    | false =>
      rw [hb] at hbase
      simp only [Bool.false_eq_true, if_false, if_pos rfl] at hbase
      exact hbase
  · intro startD endD m' hre hshape hign hr hparse hproc k v hnone hsome
    have hbase := processCell_range now sheet m cell col startD endD hre hshape hign hr hparse
    rw [hbase] at hproc
    have hm' : m' = rangeLoop endD (rangeFuel startD endD) startD m :=
      (Except.ok.inj hproc).symm
    subst hm'
    obtain ⟨_, dd, hdd⟩ := rangeLoop_adds endD (rangeFuel startD endD) startD m k v
      (parseRange_valid col startD endD hparse).1 hnone hsome
    exact ⟨dd, hdd.2.1, hdd.2.2.1, hdd.2.2.2.1, hdd.2.2.2.2.1, hdd.2.2.2.2.2⟩

/-- C4 witness: the future Saturday 4/4/2026 is skipped by the literal
branch, and the missed day 3/3/2024 is skipped by the literal branch. -/
theorem claim_C4_witness :
    processCell ⟨2026, 1, 1⟩ "S" [] "4/4/2026" = Except.ok [] ∧
    processCell ⟨2026, 1, 1⟩ "S" [] "3/3/2024" = Except.ok [] := by
  constructor
  · exact (claim_C4_amended_exclusions ⟨2026, 1, 1⟩ "S" [] "4/4/2026" "4/4/2026").1
      ⟨2026, 4, 4⟩ rfl rfl rfl rfl
  · exact (claim_C4_amended_exclusions ⟨2026, 1, 1⟩ "S" [] "3/3/2024" "3/3/2024").2.1
      ⟨2024, 3, 3⟩ rfl rfl rfl rfl

/-- C8 counterexample: `"12.5"` yields no ten extractable digits, yet it
is not passed through unchanged — the dot-truncated `"12"` is returned. -/
theorem claim_C8_counterexample :
    format_phone "12.5" = "12" ∧ ("12" : String) ≠ "12.5" :=
  ⟨rfl, by decide⟩

/-- C8 amended: `_format_phone` returns `(XXX) XXX-XXXX` exactly when
ten US digits can be extracted (after dropping a leading country-code
`1` from eleven digits): `'15125898513.0'` and `'5125898513'` both map
to `'(512) 589-8513'`; otherwise it returns the whitespace-stripped
string truncated at the first `'.'`, which equals the original string
whenever that string has no surrounding whitespace and no dot (so
`'123'` is returned unchanged). -/
theorem claim_C8_phone_normalization :
    format_phone "15125898513.0" = "(512) 589-8513" ∧
    format_phone "5125898513" = "(512) 589-8513" ∧
    format_phone "123" = "123" ∧
    (∀ s : String, (ccDrop (phoneDigits s)).length = 10 →
      format_phone s
        = "(" ++ String.mk ((ccDrop (phoneDigits s)).take 3) ++ ") "
          ++ String.mk (((ccDrop (phoneDigits s)).drop 3).take 3) ++ "-"
          ++ String.mk ((ccDrop (phoneDigits s)).drop 6)) ∧
    (∀ s : String, (ccDrop (phoneDigits s)).length ≠ 10 →
      format_phone s = phoneClean s) ∧
    (∀ s : String, stripStr s = s → (stripStr s).data.contains '.' = false →
      phoneClean s = s) := by
  refine ⟨rfl, rfl, rfl, ?_, ?_, ?_⟩
  · intro s h10
    unfold format_phone
    rw [if_pos h10]
  · intro s h10
    unfold format_phone
    rw [if_neg h10]
  · intro s hstrip hdot
    unfold phoneClean
    rw [hdot]
    simpa using hstrip

/-- C8 witness: `'123'` goes through the pass-through branch. -/
theorem claim_C8_witness :
    format_phone "123" = phoneClean "123" ∧ phoneClean "abc" = "abc" := by
  constructor
  · exact claim_C8_phone_normalization.2.2.2.2.1 "123" (by decide)
  · exact claim_C8_phone_normalization.2.2.2.2.2 "abc" rfl rfl

end MigrateData

namespace MigrateData

/-- A small workbook with all eight configured sheets, whose single date
column is the Saturday 4/5/2025. -/
def exampleCombined : Combined :=
  [("2024 Handouts", [["Volunteers:"]]),
   ("2024 Meal Prep", [["Volunteers:"]]),
   ("2025 Saturday Handout", [["4/5/2025"]]),
   ("2025 Sunday Handouts", [["Volunteers:"]]),
   ("2025 Meal Prep", [["Volunteers:"]]),
   ("2026 Saturday Handout", [["Volunteers:"]]),
   ("2026 Sunday Handouts", [["Volunteers:"]]),
   ("2026 Meal Prep", [["Volunteers:"]])]

/-- C3: Opportunity Merge is **not** idempotent.  Starting from an empty
table, the first run appends two rows (for the 4/5/2025 pair of labels);
feeding the first run's output back in as the existing table, the second
run appends the same two rows again (four total) instead of zero: the
dedup filter compares `df['name']` — which is null on rows the merge
itself synthesizes, whose only label is in `title` — and looks for the
`M/D/YYYY` substring in a datetime the merge writes in `YYYY-MM-DD`
form, so a synthesized row can never match its own pair. -/
theorem claim_C3_second_run_appends_again :
    ((generate_migrated_opportunities ⟨2026, 1, 1⟩ (fun n => toString n) "c" []
        exampleCombined).bind
      (fun df1 =>
        (generate_migrated_opportunities ⟨2026, 1, 1⟩ (fun n => toString n) "c" df1
            exampleCombined).map
          (fun df2 => (df1.length, df2.length))))
      = Except.ok (2, 4) := rfl

end MigrateData
